import Mathlib

/-!
Shallow embedding of the eldiro interpreter core (crates/eldiro): the
parser-combinator functions and the statement/expression evaluator, together
with the environment model they share.

Conventions of the embedding:
* Rust `&str` slices become `List Char` (called `Str` below); consuming a
  prefix returns the remainder, exactly as the Rust functions do.
* Rust `Result<T, String>` becomes the `Res` type below.  Besides `ok` and
  `err` it has a `fatal` constructor modelling a Rust panic (an `unwrap` on
  a failed conversion, division by zero, division overflow) and a `fuelOut`
  constructor: the recursive parser/evaluator functions take an explicit
  fuel argument and report `fuelOut` when it runs out, modelling host-stack
  exhaustion on unboundedly deep recursion.  Both propagate through `bind`
  and `orElse` just as a panic aborts a Rust computation.
* Machine integers (`i32`) become `Int` with explicit two's-complement
  wrapping (`wrap32`) where the Rust arithmetic can overflow.
-/

/-- Remaining-input type: a Rust `&str` slice, as a list of characters. -/
abbrev Str := List Char

/-- Embedding of Rust `Result<T, String>` extended with `fatal` (a panic)
and `fuelOut` (fuel exhaustion of the explicit-fuel recursion). -/
inductive Res (α : Type) where
  | ok (a : α)
  | err (m : String)
  | fatal
  | fuelOut
deriving DecidableEq

namespace Res

/-- Embedding of Rust `?` / `and_then`: `err`, `fatal` and `fuelOut`
short-circuit. -/
def bind {α β : Type} (r : Res α) (f : α → Res β) : Res β :=
  match r with
  | .ok a => f a
  | .err m => .err m
  | .fatal => .fatal
  | .fuelOut => .fuelOut

/-- Embedding of Rust `Result::map`. -/
def map {α β : Type} (f : α → β) (r : Res α) : Res β :=
  match r with
  | .ok a => .ok (f a)
  | .err m => .err m
  | .fatal => .fatal
  | .fuelOut => .fuelOut

/-- Embedding of Rust `Result::or_else` as used in the parser: on `err` the
alternative runs (the error message is discarded by every call site in the
source, which writes `|_|`); `ok`, `fatal` and `fuelOut` pass through. -/
def orElse {α : Type} (r : Res α) (f : Unit → Res α) : Res α :=
  match r with
  | .err _ => f ()
  | r => r

/-- Test for the `ok` constructor, embedding Rust `Result::is_ok`. -/
def isOk {α : Type} : Res α → Bool
  | .ok _ => true
  | _ => false

end Res

/-- Character class of the digit scanner: ASCII `0`..`9`. -/
def isDigitC (c : Char) : Bool := 48 ≤ c.toNat && c.toNat ≤ 57

/-- Character class of the whitespace scanner: space, tab, LF, CR. -/
def isWsC (c : Char) : Bool :=
  c.toNat = 32 || c.toNat = 9 || c.toNat = 10 || c.toNat = 13

/-- Character class starting an identifier: an ASCII letter. -/
def isAlphaC (c : Char) : Bool :=
  (65 ≤ c.toNat && c.toNat ≤ 90) || (97 ≤ c.toNat && c.toNat ≤ 122)

/-- Character class continuing an identifier: letter, digit or underscore. -/
def isIdentC (c : Char) : Bool := isAlphaC c || isDigitC c || c.toNat = 95

/-- Splitting of a string into its maximal leading run of characters
satisfying `p` and the remainder. -/
def spanC (p : Char → Bool) : Str → Str × Str
  | [] => ([], [])
  | c :: cs =>
    if p c then
      let r := spanC p cs
      (c :: r.1, r.2)
    else ([], c :: cs)

/-- Modelled from the spec: `utils::extract_digits` (utils.rs is not part of
the sources given) — "fails if `s` does not start with at least one ASCII
digit; otherwise returns the longest leading digit run and the rest".
Like the Rust function it returns `(remainder, digits)`. -/
def extract_digits (s : Str) : Res (Str × Str) :=
  let p := spanC isDigitC s
  if p.1 = [] then .err ("expected digits") else .ok (p.2, p.1)

/-- Modelled from the spec: `utils::extract_whitespace` — "always succeeds;
whitespace may be empty".  Returns `(remainder, whitespace)`. -/
def extract_whitespace (s : Str) : Str × Str :=
  let p := spanC isWsC s
  (p.2, p.1)

/-- Modelled from the spec: the nonempty-whitespace scanner required by the
space-separated syntaxes of §4.2/§4.3 (utils.rs is not part of the sources
given); it fails when no leading whitespace is present. -/
def extract_whitespace1 (s : Str) : Res (Str × Str) :=
  let p := spanC isWsC s
  if p.1 = [] then .err ("expected a space") else .ok (p.2, p.1)

/-- Modelled from the spec: `utils::extract_ident` — "fails if `s` does not
start with an alphabetic character; otherwise returns the longest leading
run of alphanumeric/underscore characters starting with a letter". -/
def extract_ident (s : Str) : Res (Str × Str) :=
  match s with
  | [] => .err ("expected identifier")
  | c :: cs =>
    if isAlphaC c then
      let p := spanC isIdentC (c :: cs)
      .ok (p.2, p.1)
    else .err ("expected identifier")

/-- Stripping of a literal prefix: `some remainder` when `lit` is a prefix
of `s`, otherwise `none`. -/
def stripLit : Str → Str → Option Str
  | [], s => some s
  | _ :: _, [] => none
  | l :: ls, c :: cs => if c = l then stripLit ls cs else none

/-- Modelled from the spec: `utils::tag` — "fails unless `s` starts exactly
with `literal`; returns the rest of `s` past it". -/
def tag (lit : Str) (s : Str) : Res Str :=
  match stripLit lit s with
  | some r => .ok r
  | none => .err ("expected " ++ String.mk lit)

/-- Numeric value of a big-endian ASCII digit string, accumulated left to
right exactly as Rust `i32::from_str` does on an all-digit input. -/
def charVal (c : Char) : Nat := c.toNat - 48

/-- Accumulation of a digit string into the number it denotes. -/
def digitsToNat (s : Str) : Nat :=
  s.foldl (fun acc c => acc * 10 + charVal c) 0

/-- AST node for an integer literal, from `Number(pub(crate) i32)` in
expr.rs.  The `i32` payload is an `Int`; every value the parser constructs
lies in `[0, 2147483647]`. -/
structure Number where
  num : Int
deriving DecidableEq

/-- Embedding of `Number::new` (expr.rs): extract the leading digit run and
convert with `parse().unwrap()`.  Rust `i32::from_str` fails on an
all-digit string exactly when the value exceeds `i32::MAX`, and the
`unwrap` turns that failure into a panic, modelled as `fatal`. -/
def Number.new (s : Str) : Res (Str × Number) :=
  (extract_digits s).bind fun p =>
    let n := digitsToNat p.2
    if n ≤ 2147483647 then .ok (p.1, ⟨(n : Int)⟩) else .fatal

/-- Binary operators, from `enum Op` in expr.rs. -/
inductive Op where
  | Add
  | Sub
  | Mul
  | Div
deriving DecidableEq

/-- Embedding of `Op::new` (expr.rs): try the four one-character tags in
order `+`, `-`, `*`, `/`. -/
def Op.new (s : Str) : Res (Str × Op) :=
  (Res.map (fun r => (r, Op.Add)) (tag (['+']) s)).orElse fun _ =>
    (Res.map (fun r => (r, Op.Sub)) (tag (['-']) s)).orElse fun _ =>
      (Res.map (fun r => (r, Op.Mul)) (tag (['*']) s)).orElse fun _ =>
        Res.map (fun r => (r, Op.Div)) (tag (['/']) s)

/-- Source character of each operator, used to build operation strings. -/
def Op.char : Op → Char
  | .Add => '+'
  | .Sub => '-'
  | .Mul => '*'
  | .Div => '/'

/-- AST node for a variable reference, from binding_usage.rs. -/
structure BindingUsage where
  name : Str
deriving DecidableEq

mutual

/-- Expression AST, from `enum Expr` in expr.rs. -/
inductive Expr where
  | Number (n : Number)
  | Operation (lhs : Expr) (rhs : Expr) (op : Op)
  | BindingUsage (b : BindingUsage)
  | Block (b : Block)
  | FuncCall (f : FuncCall)

/-- Block AST: a bracketed sequence of statements (block.rs is not part of
the sources given; the shape is fixed by its uses in expr.rs and the spec). -/
inductive Block where
  | mk (stmts : List Stmt)

/-- Function-call AST: callee name and argument expressions (func_call.rs is
not part of the sources given; the field names `callee` and `params` appear
in the expr.rs tests). -/
inductive FuncCall where
  | mk (callee : Str) (params : List Expr)

/-- Statement AST, from `enum Stmt` in stmt.rs. -/
inductive Stmt where
  | BindingDef (b : BindingDef)
  | Expr (e : Expr)
  | FuncDef (f : FuncDef)

/-- Binding-definition AST: `let <ident> = <expr>` (binding_def.rs is not
part of the sources given; the shape is fixed by stmt.rs and the spec). -/
inductive BindingDef where
  | mk (name : Str) (val : Expr)

/-- Function-definition AST: name, parameter names and a statement body
(func_def.rs is not part of the sources given; the field names appear in
the stmt.rs and expr.rs tests). -/
inductive FuncDef where
  | mk (name : Str) (params : List Str) (body : Stmt)

end

/-- Runtime values, from val.rs (not part of the sources given): "either
Number(i32) or Unit" per §3 of the spec. -/
inductive Val where
  | Number (n : Int)
  | Unit
deriving DecidableEq

/-- Modelled from the spec: the environment (env.rs is not part of the
sources given) — "two mappings, both keyed by name (string), one to Val
(bindings) and one to function records"; association lists with the newest
entry in front give the required last-write-wins behaviour. -/
structure Env where
  bindings : List (Str × Val)
  funcs : List (Str × (List Str × Stmt))

/-- The empty environment, embedding `Env::default()`. -/
def Env.default : Env := ⟨[], []⟩

/-- First-match association-list lookup. -/
def lookupA {α : Type} (k : Str) : List (Str × α) → Option α
  | [] => none
  | (k', v) :: rest => if k = k' then some v else lookupA k rest

/-- Modelled from the spec: `Env::store_binding` — later stores silently
replace earlier ones (the new entry shadows in front). -/
def Env.store_binding (env : Env) (name : Str) (v : Val) : Env :=
  { env with bindings := (name, v) :: env.bindings }

/-- Modelled from the spec: `Env::store_func`. -/
def Env.store_func (env : Env) (name : Str) (params : List Str) (body : Stmt) : Env :=
  { env with funcs := (name, (params, body)) :: env.funcs }

/-- Modelled from the spec: `Env::get_binding` — fails with a descriptive
not-found message identifying the missing name. -/
def Env.get_binding (env : Env) (name : Str) : Except String Val :=
  match lookupA name env.bindings with
  | some v => .ok v
  | none => .error ("binding with name " ++ String.mk name ++ " does not exist")

/-- Modelled from the spec: `Env::get_func`. -/
def Env.get_func (env : Env) (name : Str) : Except String (List Str × Stmt) :=
  match lookupA name env.funcs with
  | some r => .ok r
  | none => .error ("function with name " ++ String.mk name ++ " does not exist")

/-- Seeding of a child environment with parameter bindings, one
`store_binding` per (parameter, argument) pair. -/
def Env.storeParams (env : Env) : List Str → List Val → Env
  | p :: ps, v :: vs => (env.store_binding p v).storeParams ps vs
  | _, _ => env

/-- Embedding of `BindingUsage::new` (binding_usage.rs): extract an
identifier. -/
def BindingUsage.new (s : Str) : Res (Str × BindingUsage) :=
  (extract_ident s).bind fun p => .ok (p.1, ⟨p.2⟩)

/-- Embedding of `Expr::new_number` (expr.rs). -/
def Expr.new_number (s : Str) : Res (Str × Expr) :=
  Res.map (fun p => (p.1, Expr.Number p.2)) (Number.new s)

mutual

/-- Embedding of `Stmt::new` (stmt.rs): try `BindingDef`, then `FuncDef`,
then a bare `Expr`, first success wins.  The fuel argument bounds the
recursion depth; every recursive call runs at `fuel` after matching
`fuel + 1`. -/
def Stmt.new : Nat → Str → Res (Str × Stmt)
  | 0, _ => .fuelOut
  | fuel + 1, s =>
    (Res.map (fun p => (p.1, Stmt.BindingDef p.2)) (BindingDef.new fuel s)).orElse fun _ =>
      (Res.map (fun p => (p.1, Stmt.FuncDef p.2)) (FuncDef.new fuel s)).orElse fun _ =>
        Res.map (fun p => (p.1, Stmt.Expr p.2)) (Expr.new fuel s)

/-- Modelled from the spec: `BindingDef::new` (binding_def.rs is not part of
the sources given) — syntax `let <ident> = <expr>`, with mandatory
whitespace after the `let` keyword. -/
def BindingDef.new : Nat → Str → Res (Str × BindingDef)
  | 0, _ => .fuelOut
  | fuel + 1, s =>
    (tag ("let".data) s).bind fun s =>
      (extract_whitespace1 s).bind fun p =>
        (extract_ident p.1).bind fun q =>
          let r := extract_whitespace q.1
          (tag (['=']) r.1).bind fun s =>
            let r2 := extract_whitespace s
            Res.map (fun u => (u.1, BindingDef.mk q.2 u.2)) (Expr.new fuel r2.1)

/-- Modelled from the spec: `FuncDef::new` (func_def.rs is not part of the
sources given) — syntax `fn <ident> <param>* => <stmt-as-body>`. -/
def FuncDef.new : Nat → Str → Res (Str × FuncDef)
  | 0, _ => .fuelOut
  | fuel + 1, s =>
    (tag ("fn".data) s).bind fun s =>
      (extract_whitespace1 s).bind fun p =>
        (extract_ident p.1).bind fun q =>
          let r := extract_whitespace q.1
          (parseIdents fuel r.1).bind fun ids =>
            (tag ("=>".data) ids.1).bind fun s =>
              let r2 := extract_whitespace s
              Res.map (fun u => (u.1, FuncDef.mk q.2 ids.2 u.2)) (Stmt.new fuel r2.1)

/-- Parameter-name list of a function definition: zero or more identifiers,
each followed by optional whitespace; stops at the first non-identifier. -/
def parseIdents : Nat → Str → Res (Str × List Str)
  | 0, _ => .fuelOut
  | fuel + 1, s =>
    match extract_ident s with
    | .ok p =>
      let r := extract_whitespace p.1
      Res.map (fun q => (q.1, p.2 :: q.2)) (parseIdents fuel r.1)
    | .err _ => .ok (s, [])
    | .fatal => .fatal
    | .fuelOut => .fuelOut

/-- Embedding of `Expr::new` (expr.rs): try an operation first, fall back to
a non-operation. -/
def Expr.new : Nat → Str → Res (Str × Expr)
  | 0, _ => .fuelOut
  | fuel + 1, s =>
    (Expr.new_operation fuel s).orElse fun _ => Expr.new_non_operation fuel s

/-- Embedding of `Expr::new_non_operation` (expr.rs): number, then function
call, then binding usage, then block. -/
def Expr.new_non_operation : Nat → Str → Res (Str × Expr)
  | 0, _ => .fuelOut
  | fuel + 1, s =>
    (Expr.new_number s).orElse fun _ =>
      (Res.map (fun p => (p.1, Expr.FuncCall p.2)) (FuncCall.new fuel s)).orElse fun _ =>
        (Res.map (fun p => (p.1, Expr.BindingUsage p.2)) (BindingUsage.new s)).orElse fun _ =>
          Res.map (fun p => (p.1, Expr.Block p.2)) (Block.new fuel s)

/-- Embedding of `Expr::new_operation` (expr.rs): a non-operation, optional
whitespace, an operator, optional whitespace, a non-operation. -/
def Expr.new_operation : Nat → Str → Res (Str × Expr)
  | 0, _ => .fuelOut
  | fuel + 1, s =>
    (Expr.new_non_operation fuel s).bind fun p =>
      let r := extract_whitespace p.1
      (Op.new r.1).bind fun q =>
        let r2 := extract_whitespace q.1
        Res.map (fun u => (u.1, Expr.Operation p.2 u.2 q.2)) (Expr.new_non_operation fuel r2.1)

/-- Modelled from the spec: `FuncCall::new` (func_call.rs is not part of the
sources given) — "at least the callee name followed by space-separated
argument expressions"; with no argument it fails so that a bare identifier
falls through to a binding usage. -/
def FuncCall.new : Nat → Str → Res (Str × FuncCall)
  | 0, _ => .fuelOut
  | fuel + 1, s =>
    (extract_ident s).bind fun p =>
      Res.map (fun q => (q.1, FuncCall.mk p.2 q.2)) (parseArgs1 fuel p.1)

/-- Argument list of a function call: one mandatory whitespace-preceded
expression followed by any further ones. -/
def parseArgs1 : Nat → Str → Res (Str × List Expr)
  | 0, _ => .fuelOut
  | fuel + 1, s =>
    (extract_whitespace1 s).bind fun p =>
      (Expr.new fuel p.1).bind fun q =>
        Res.map (fun u => (u.1, q.2 :: u.2)) (parseMoreArgs fuel q.1)

/-- Zero or more further call arguments, each preceded by nonempty
whitespace; backtracks to before the whitespace when no further expression
parses. -/
def parseMoreArgs : Nat → Str → Res (Str × List Expr)
  | 0, _ => .fuelOut
  | fuel + 1, s =>
    match extract_whitespace1 s with
    | .ok p =>
      match Expr.new fuel p.1 with
      | .ok q => Res.map (fun u => (u.1, q.2 :: u.2)) (parseMoreArgs fuel q.1)
      | .err _ => .ok (s, [])
      | .fatal => .fatal
      | .fuelOut => .fuelOut
    | .err _ => .ok (s, [])
    | .fatal => .fatal
    | .fuelOut => .fuelOut

/-- Modelled from the spec: `Block::new` (block.rs is not part of the
sources given) — a brace, optional whitespace, whitespace-separated
statements, optional whitespace, a closing brace. -/
def Block.new : Nat → Str → Res (Str × Block)
  | 0, _ => .fuelOut
  | fuel + 1, s =>
    (tag (['\x7b']) s).bind fun s =>
      let r := extract_whitespace s
      (parseStmts fuel r.1).bind fun p =>
        let r2 := extract_whitespace p.1
        (tag (['\x7d']) r2.1).bind fun s =>
          .ok (s, Block.mk p.2)

/-- Statement sequence of a block: statements each followed by optional
whitespace, ending at the first failing statement parse. -/
def parseStmts : Nat → Str → Res (Str × List Stmt)
  | 0, _ => .fuelOut
  | fuel + 1, s =>
    match Stmt.new fuel s with
    | .ok p =>
      let r := extract_whitespace p.1
      Res.map (fun q => (q.1, p.2 :: q.2)) (parseStmts fuel r.1)
    | .err _ => .ok (s, [])
    | .fatal => .fatal
    | .fuelOut => .fuelOut

end

/-- Signed 32-bit range, i32::MIN. -/
def i32min : Int := -2147483648

/-- Signed 32-bit range, i32::MAX. -/
def i32max : Int := 2147483647

/-- Two's-complement wrapping of an integer into the signed 32-bit range,
modelling released-mode Rust `i32` arithmetic. -/
def wrap32 (x : Int) : Int := (x + 2147483648) % 4294967296 - 2147483648

mutual

/-- Embedding of `Expr::eval` (expr.rs).  The arithmetic arms wrap like
Rust release-mode `i32`; `/` panics (modelled as `fatal`) on a zero divisor
and on `i32::MIN / -1`, and otherwise truncates toward zero. -/
def Expr.eval : Nat → Expr → Env → Res Val
  | 0, _, _ => .fuelOut
  | fuel + 1, e, env =>
    match e with
    | .Number n => .ok (.Number n.num)
    | .Operation lhs rhs op =>
      (Expr.eval fuel lhs env).bind fun lv =>
        (Expr.eval fuel rhs env).bind fun rv =>
          match lv, rv with
          | .Number l, .Number r =>
            match op with
            | .Add => .ok (.Number (wrap32 (l + r)))
            | .Sub => .ok (.Number (wrap32 (l - r)))
            | .Mul => .ok (.Number (wrap32 (l * r)))
            | .Div =>
              if r = 0 ∨ (l = i32min ∧ r = -1) then .fatal
              else .ok (.Number (Int.tdiv l r))
          | _, _ =>
            .err ("cannot evaluate operation whose left-hand side and right-hand side are not both numbers")
    | .BindingUsage b => BindingUsage.eval fuel b env
    | .Block b => Block.evalBlock fuel b env
    | .FuncCall f => FuncCall.evalCall fuel f env

/-- Embedding of `BindingUsage::eval` (binding_usage.rs): look the name up
among the bindings; on failure, if a function of that name exists, evaluate
it as a zero-argument call, otherwise propagate the lookup error. -/
def BindingUsage.eval : Nat → BindingUsage → Env → Res Val
  | 0, _, _ => .fuelOut
  | fuel + 1, b, env =>
    match env.get_binding b.name with
    | .ok v => .ok v
    | .error msg =>
      if (env.get_func b.name).toBool then
        FuncCall.evalCall fuel (FuncCall.mk b.name []) env
      else .err msg

/-- Modelled from the spec: `Block::eval` (block.rs is not part of the
sources given) — "evaluate its statements in order inside a nested
environment; yields the value of the last statement, or Unit if empty".
The nested child environment is a copy of the enclosing one whose changes
are discarded when the block ends. -/
def Block.evalBlock : Nat → Block → Env → Res Val
  | 0, _, _ => .fuelOut
  | fuel + 1, b, env =>
    match b with
    | .mk stmts => evalStmts fuel stmts env

/-- Statement sequence of a block: thread the child environment through the
statements and keep the last value. -/
def evalStmts : Nat → List Stmt → Env → Res Val
  | 0, _, _ => .fuelOut
  | _ + 1, [], _ => .ok (.Unit)
  | fuel + 1, st :: rest, env =>
    (Stmt.eval fuel st env).bind fun p =>
      match rest with
      | [] => .ok p.1
      | _ :: _ => evalStmts fuel rest p.2

/-- Modelled from the spec: `FuncCall::eval` (func_call.rs is not part of
the sources given) — resolve the callee, arity-check, evaluate the
arguments in the caller's environment, bind them in a child environment and
evaluate the body there. -/
def FuncCall.evalCall : Nat → FuncCall → Env → Res Val
  | 0, _, _ => .fuelOut
  | fuel + 1, f, env =>
    match f with
    | .mk callee args =>
      match env.get_func callee with
      | .ok pb =>
        if args.length = pb.1.length then
          (evalArgs fuel args env).bind fun vals =>
            Res.map (fun p => p.1) (Stmt.eval fuel pb.2 (env.storeParams pb.1 vals))
        else .err ("wrong number of arguments were passed to " ++ String.mk callee)
      | .error msg => .err msg

/-- Evaluation of the call arguments, left to right, in the caller's
environment. -/
def evalArgs : Nat → List Expr → Env → Res (List Val)
  | 0, _, _ => .fuelOut
  | _ + 1, [], _ => .ok []
  | fuel + 1, e :: rest, env =>
    (Expr.eval fuel e env).bind fun v =>
      Res.map (fun vs => v :: vs) (evalArgs fuel rest env)

/-- Embedding of `Stmt::eval` (stmt.rs): a `BindingDef` stores its evaluated
expression and yields `Unit`; a `FuncDef` stores its record and yields
`Unit`; a bare `Expr` yields its own value.  The updated environment is
returned alongside the value, modelling the `&mut Env` parameter. -/
def Stmt.eval : Nat → Stmt → Env → Res (Val × Env)
  | 0, _, _ => .fuelOut
  | fuel + 1, st, env =>
    match st with
    | .BindingDef (.mk name e) =>
      (Expr.eval fuel e env).bind fun v => .ok (.Unit, env.store_binding name v)
    | .FuncDef (.mk name params body) => .ok (.Unit, env.store_func name params body)
    | .Expr e => Res.map (fun v => (v, env)) (Expr.eval fuel e env)

end

/-- Modelled from the spec: the entry point `evaluate(source)` (lib.rs is
not part of the sources given) — parse one statement from the input and
evaluate it against a fresh environment. -/
def evaluate (fuel : Nat) (s : Str) : Res Val :=
  (Stmt.new fuel s).bind fun p =>
    Res.map (fun q => q.1) (Stmt.eval fuel p.2 Env.default)

/-- Sanity check of the embedded pipeline on the spec example `1+2`. -/
theorem evaluate_one_plus_two : evaluate 9 (("1+2").data) = .ok (.Number 3) := by decide

/-- Sanity check of the embedded pipeline on the spec example `2 * 2`. -/
theorem evaluate_two_times_two : evaluate 9 (("2 * 2").data) = .ok (.Number 4) := by decide

/-- Test for the `Operation` constructor. -/
def Expr.isOperationE : Expr → Bool
  | .Operation _ _ _ => true
  | _ => false

mutual

/-- Flatness of an expression: nowhere in the tree does an `Operation` have
an `Operation` as its immediate left- or right-hand side. -/
def Expr.flat : Expr → Bool
  | .Number _ => true
  | .Operation l r _ => !l.isOperationE && !r.isOperationE && Expr.flat l && Expr.flat r
  | .BindingUsage _ => true
  | .Block b => Block.flatB b
  | .FuncCall f => FuncCall.flatF f

/-- Flatness of every statement of a block. -/
def Block.flatB : Block → Bool
  | .mk stmts => stmtsFlat stmts

/-- Flatness of every argument of a call. -/
def FuncCall.flatF : FuncCall → Bool
  | .mk _ args => exprsFlat args

/-- Flatness of every expression inside a statement. -/
def Stmt.flat : Stmt → Bool
  | .BindingDef (.mk _ e) => Expr.flat e
  | .FuncDef (.mk _ _ body) => Stmt.flat body
  | .Expr e => Expr.flat e

/-- Flatness of a statement list. -/
def stmtsFlat : List Stmt → Bool
  | [] => true
  | st :: rest => Stmt.flat st && stmtsFlat rest

/-- Flatness of an expression list. -/
def exprsFlat : List Expr → Bool
  | [] => true
  | e :: rest => Expr.flat e && exprsFlat rest

end

theorem Res.bind_eq_ok {α β : Type} {r : Res α} {f : α → Res β} {b : β}
    (h : r.bind f = .ok b) : ∃ a, r = .ok a ∧ f a = .ok b := by
  cases r with
  | ok a => exact ⟨a, rfl, h⟩
  | err m => simp [Res.bind] at h
  | fatal => simp [Res.bind] at h
  | fuelOut => simp [Res.bind] at h

theorem Res.map_eq_ok {α β : Type} {g : α → β} {r : Res α} {b : β}
    (h : Res.map g r = .ok b) : ∃ a, r = .ok a ∧ g a = b := by
  cases r with
  | ok a => exact ⟨a, rfl, by simpa [Res.map] using h⟩
  | err m => simp [Res.map] at h
  | fatal => simp [Res.map] at h
  | fuelOut => simp [Res.map] at h

theorem Res.orElse_eq_ok {α : Type} {r : Res α} {f : Unit → Res α} {v : α}
    (h : r.orElse f = .ok v) : r = .ok v ∨ ∃ m, r = .err m ∧ f () = .ok v := by
  cases r with
  | ok a => left; simpa [Res.orElse] using h
  | err m => right; exact ⟨m, rfl, h⟩
  | fatal => simp [Res.orElse] at h
  | fuelOut => simp [Res.orElse] at h

theorem Res.bind_eq_err {α β : Type} {r : Res α} {f : α → Res β} {m : String}
    (h : r.bind f = .err m) :
    (∃ a, r = .ok a ∧ f a = .err m) ∨ r = .err m := by
  cases r with
  | ok a => exact Or.inl ⟨a, rfl, h⟩
  | err m' => simp [Res.bind] at h; simp [h]
  | fatal => simp [Res.bind] at h
  | fuelOut => simp [Res.bind] at h

theorem Res.map_eq_err {α β : Type} {g : α → β} {r : Res α} {m : String}
    (h : Res.map g r = .err m) : r = .err m := by
  cases r with
  | ok a => simp [Res.map] at h
  | err m' => simpa [Res.map] using h
  | fatal => simp [Res.map] at h
  | fuelOut => simp [Res.map] at h

theorem Res.orElse_eq_err {α : Type} {r : Res α} {f : Unit → Res α} {m : String}
    (h : r.orElse f = .err m) : ∃ m', r = .err m' ∧ f () = .err m := by
  cases r with
  | ok a => simp [Res.orElse] at h
  | err m' => exact ⟨m', rfl, h⟩
  | fatal => simp [Res.orElse] at h
  | fuelOut => simp [Res.orElse] at h

/-- ASCII digit character of a single decimal digit. -/
def digichar : Nat → Char
  | 0 => '0'
  | 1 => '1'
  | 2 => '2'
  | 3 => '3'
  | 4 => '4'
  | 5 => '5'
  | 6 => '6'
  | 7 => '7'
  | 8 => '8'
  | _ => '9'

/-- Decimal source string of a natural number, most significant digit
first: the form in which an integer literal appears in a source text. -/
def decimal (n : Nat) : Str :=
  if n = 0 then [('0')] else (Nat.digits 10 n).reverse.map digichar

theorem digichar_isDigit {d : Nat} (h : d < 10) : isDigitC (digichar d) = true := by
  interval_cases d <;> decide

theorem charVal_digichar {d : Nat} (h : d < 10) : charVal (digichar d) = d := by
  interval_cases d <;> decide

theorem decimal_all_digits {n : Nat} : ∀ c ∈ decimal n, isDigitC c = true := by
  intro c hc
  unfold decimal at hc
  by_cases h : n = 0
  · simp [h] at hc
    subst hc
    decide
  · simp [h] at hc
    obtain ⟨d, hd, rfl⟩ := hc
    exact digichar_isDigit (Nat.digits_lt_base (by norm_num) hd)

theorem decimal_ne_nil {n : Nat} : decimal n ≠ [] := by
  unfold decimal
  by_cases h : n = 0
  · simp [h]
  · simp [h, Nat.digits_ne_nil_iff_ne_zero.mpr h]

theorem foldl_digichar (L : List Nat) (hL : ∀ d ∈ L, d < 10) (acc : Nat) :
    List.foldl (fun a c => a * 10 + charVal c) acc (L.reverse.map digichar) =
      acc * 10 ^ L.length + Nat.ofDigits 10 L := by
  induction L generalizing acc with
  | nil => simp [Nat.ofDigits_nil]
  | cons d L ih =>
    have hrev : ((d :: L).reverse.map digichar) =
        (L.reverse.map digichar) ++ [digichar d] := by
      simp
    rw [hrev, List.foldl_append, ih (fun x hx => hL x (List.mem_cons_of_mem d hx))]
    simp only [List.foldl]
    rw [charVal_digichar (hL d (List.mem_cons_self d L)), Nat.ofDigits_cons,
      List.length_cons, pow_succ]
    ring

theorem digitsToNat_decimal (n : Nat) : digitsToNat (decimal n) = n := by
  unfold digitsToNat decimal
  by_cases h : n = 0
  · simp [h]; decide
  · simp only [h, if_false]
    rw [foldl_digichar (Nat.digits 10 n) (fun d hd => Nat.digits_lt_base (by norm_num) hd) 0]
    simp [Nat.ofDigits_digits]

theorem spanC_cons_neg {p : Char → Bool} {c : Char} (t : Str) (h : p c = false) :
    spanC p (c :: t) = ([], c :: t) := by
  unfold spanC
  simp [h]

theorem spanC_append_all {p : Char → Bool} {xs : Str} (r : Str)
    (h : ∀ c ∈ xs, p c = true) :
    spanC p (xs ++ r) = (xs ++ (spanC p r).1, (spanC p r).2) := by
  induction xs with
  | nil => simp
  | cons c t ih =>
    have hc : p c = true := h c (List.mem_cons_self c t)
    simp only [List.cons_append]
    rw [spanC, if_pos hc, ih (fun x hx => h x (List.mem_cons_of_mem c hx))]

theorem spanC_all {p : Char → Bool} {xs : Str} (h : ∀ c ∈ xs, p c = true) :
    spanC p xs = (xs, []) := by
  have := @spanC_append_all p xs [] h
  simpa [spanC] using this

theorem ws_not_digit {c : Char} (h : isWsC c = true) : isDigitC c = false := by
  have h' : (c.toNat = 32 ∨ c.toNat = 9) ∨ c.toNat = 10 ∨ c.toNat = 13 := by
    have h2 := h
    simp [isWsC] at h2
    tauto
  simp only [isDigitC, Bool.and_eq_false_iff, decide_eq_false_iff_not]
  omega

theorem digit_not_ws {c : Char} (h : isDigitC c = true) : isWsC c = false := by
  have h' : 48 ≤ c.toNat ∧ c.toNat ≤ 57 := by simpa [isDigitC] using h
  simp only [isWsC, Bool.or_eq_false_iff, decide_eq_false_iff_not]
  omega

theorem opchar_not_digit (op : Op) : isDigitC op.char = false := by
  cases op <;> decide

theorem opchar_not_ws (op : Op) : isWsC op.char = false := by
  cases op <;> decide

theorem digit_ne_l {c : Char} (h : isDigitC c = true) : c ≠ 'l' := by
  intro hc
  subst hc
  simp [isDigitC] at h

theorem digit_ne_f {c : Char} (h : isDigitC c = true) : c ≠ 'f' := by
  intro hc
  subst hc
  simp [isDigitC] at h

theorem Res.ok_bind {α β : Type} (a : α) (f : α → Res β) : (Res.ok a).bind f = f a := rfl

theorem Res.err_bind {α β : Type} (m : String) (f : α → Res β) :
    (Res.err m).bind f = .err m := rfl

theorem Res.map_ok_eq {α β : Type} (g : α → β) (a : α) :
    Res.map g (.ok a) = .ok (g a) := rfl

theorem Res.map_err_eq {α β : Type} (g : α → β) (m : String) :
    Res.map g (.err m : Res α) = .err m := rfl

theorem Res.ok_orElse {α : Type} (a : α) (f : Unit → Res α) :
    (Res.ok a).orElse f = .ok a := rfl

theorem Res.err_orElse {α : Type} (m : String) (f : Unit → Res α) :
    (Res.err m).orElse f = f () := rfl

theorem extract_digits_exact {da rest : Str} (hne : da ≠ [])
    (hall : ∀ c ∈ da, isDigitC c = true)
    (hrest : ∀ c t, rest = c :: t → isDigitC c = false) :
    extract_digits (da ++ rest) = .ok (rest, da) := by
  unfold extract_digits
  rw [spanC_append_all rest hall]
  cases rest with
  | nil => simp [spanC, hne]
  | cons c t =>
    rw [spanC_cons_neg t (hrest c t rfl)]
    simp [hne]

theorem extract_whitespace_exact {ws rest : Str} (hall : ∀ c ∈ ws, isWsC c = true)
    (hrest : ∀ c t, rest = c :: t → isWsC c = false) :
    extract_whitespace (ws ++ rest) = (rest, ws) := by
  unfold extract_whitespace
  rw [spanC_append_all rest hall]
  cases rest with
  | nil => simp [spanC]
  | cons c t =>
    rw [spanC_cons_neg t (hrest c t rfl)]
    simp

theorem Number.new_exact {a : Nat} {rest : Str} (ha : a ≤ 2147483647)
    (hrest : ∀ c t, rest = c :: t → isDigitC c = false) :
    Number.new (decimal a ++ rest) = .ok (rest, ⟨(a : Int)⟩) := by
  unfold Number.new
  rw [extract_digits_exact decimal_ne_nil decimal_all_digits hrest, Res.ok_bind]
  simp [digitsToNat_decimal, ha]

theorem Op.new_char (op : Op) (t : Str) : Op.new (op.char :: t) = .ok (t, op) := by
  cases op <;> simp [Op.new, Op.char, tag, stripLit, Res.map, Res.orElse]

theorem head_not_digit_mixed {ws1 t : Str} {c : Char}
    (hws : ∀ x ∈ ws1, isWsC x = true) (hc : isDigitC c = false) :
    ∀ d u, ws1 ++ (c :: t) = d :: u → isDigitC d = false := by
  intro d u h
  cases ws1 with
  | nil =>
    simp at h
    rw [← h.1]
    exact hc
  | cons w tws =>
    simp at h
    rw [← h.1]
    exact ws_not_digit (hws w (List.mem_cons_self w tws))

theorem head_decimal_not_ws {b : Nat} :
    ∀ c t, decimal b = c :: t → isWsC c = false := by
  intro c t h
  exact digit_not_ws (decimal_all_digits c (by rw [h]; exact List.mem_cons_self c t))

theorem new_non_operation_number {a : Nat} {rest : Str} (fuel : Nat) (ha : a ≤ 2147483647)
    (hrest : ∀ c t, rest = c :: t → isDigitC c = false) :
    Expr.new_non_operation (fuel + 1) (decimal a ++ rest) =
      .ok (rest, .Number ⟨(a : Int)⟩) := by
  rw [Expr.new_non_operation]
  unfold Expr.new_number
  rw [Number.new_exact ha hrest, Res.map_ok_eq, Res.ok_orElse]

theorem new_operation_exact (fuel : Nat) {a b : Nat} {ws1 ws2 : Str} (op : Op)
    (ha : a ≤ 2147483647) (hb : b ≤ 2147483647)
    (hws1 : ∀ c ∈ ws1, isWsC c = true) (hws2 : ∀ c ∈ ws2, isWsC c = true) :
    Expr.new_operation (fuel + 2) (decimal a ++ (ws1 ++ (op.char :: (ws2 ++ decimal b)))) =
      .ok ([], .Operation (.Number ⟨(a : Int)⟩) (.Number ⟨(b : Int)⟩) op) := by
  have h1 := @new_non_operation_number a
    (ws1 ++ (op.char :: (ws2 ++ decimal b))) fuel ha
    (head_not_digit_mixed hws1 (opchar_not_digit op))
  have h2 : extract_whitespace (ws1 ++ (op.char :: (ws2 ++ decimal b))) =
      (op.char :: (ws2 ++ decimal b), ws1) :=
    extract_whitespace_exact hws1 (by
      intro c t h
      simp at h
      rw [← h.1]
      exact opchar_not_ws op)
  have h3 : extract_whitespace (ws2 ++ decimal b) = (decimal b, ws2) :=
    extract_whitespace_exact hws2 (by
      intro c t h
      exact head_decimal_not_ws c t h)
  have h4 : Expr.new_non_operation (fuel + 1) (decimal b) =
      .ok ([], .Number ⟨(b : Int)⟩) := by
    have := @new_non_operation_number b [] fuel hb
      (by intro c t h; simp at h)
    simpa using this
  rw [Expr.new_operation, h1, Res.ok_bind]
  simp only [h2, Op.new_char op, Res.ok_bind, h3, h4, Res.map_ok_eq]

theorem tag_cons_ne {l : Char} {ls : Str} {c : Char} {cs : Str} (h : c ≠ l) :
    tag (l :: ls) (c :: cs) = .err ("expected " ++ String.mk (l :: ls)) := by
  simp [tag, stripLit, h]

theorem letBranch_digit_head (fuel : Nat) {c : Char} {cs : Str}
    (hc : isDigitC c = true) :
    BindingDef.new (fuel + 1) (c :: cs) = .err ("expected let") := by
  rw [BindingDef.new]
  rw [tag_cons_ne (digit_ne_l hc), Res.err_bind]
  rfl

theorem fnBranch_digit_head (fuel : Nat) {c : Char} {cs : Str}
    (hc : isDigitC c = true) :
    FuncDef.new (fuel + 1) (c :: cs) = .err ("expected fn") := by
  rw [FuncDef.new]
  rw [tag_cons_ne (digit_ne_f hc), Res.err_bind]
  rfl

theorem decimal_cons (n : Nat) :
    ∃ c cs, decimal n = c :: cs ∧ isDigitC c = true := by
  cases h : decimal n with
  | nil => exact absurd h decimal_ne_nil
  | cons c cs =>
    exact ⟨c, cs, rfl, decimal_all_digits c (by rw [h]; exact List.mem_cons_self c cs)⟩

/-- Full parse of a flat operation source string: `Stmt::new` rejects the
`let` and `fn` branches and parses the whole input as a bare operation
expression, for every fuel of at least 4. -/
theorem Stmt.new_op_string (fuel : Nat) {a b : Nat} {ws1 ws2 : Str} (op : Op)
    (ha : a ≤ 2147483647) (hb : b ≤ 2147483647)
    (hws1 : ∀ c ∈ ws1, isWsC c = true) (hws2 : ∀ c ∈ ws2, isWsC c = true) :
    Stmt.new (fuel + 4) (decimal a ++ (ws1 ++ (op.char :: (ws2 ++ decimal b)))) =
      .ok ([], .Expr (.Operation (.Number ⟨(a : Int)⟩) (.Number ⟨(b : Int)⟩) op)) := by
  obtain ⟨c, cs, hdec, hc⟩ := decimal_cons a
  have hs : decimal a ++ (ws1 ++ (op.char :: (ws2 ++ decimal b))) =
      c :: (cs ++ (ws1 ++ (op.char :: (ws2 ++ decimal b)))) := by
    rw [hdec]
    rfl
  have hop := new_operation_exact fuel op ha hb hws1 hws2
  rw [Stmt.new]
  rw [hs, letBranch_digit_head (fuel + 2) hc, fnBranch_digit_head (fuel + 2) hc,
    Res.map_err_eq, Res.err_orElse, Res.map_err_eq, Res.err_orElse]
  rw [Expr.new]
  rw [← hs, hop, Res.ok_orElse, Res.map_ok_eq]

/-- Exact mathematical result of an operator on two natural operands:
`Add`, `Sub` and `Mul` are the integer operations, `Div` truncates toward
zero (which on nonnegative operands is natural division). -/
def opExact (op : Op) (a b : Nat) : Int :=
  match op with
  | .Add => (a : Int) + b
  | .Sub => (a : Int) - b
  | .Mul => (a : Int) * b
  | .Div => ((a / b : Nat) : Int)

theorem wrap32_eq_self {x : Int} (h1 : -2147483648 ≤ x) (h2 : x ≤ 2147483647) :
    wrap32 x = x := by
  unfold wrap32
  omega

/-- Evaluation of a flat operation on in-range nonnegative literals yields
the exact operator result, in every environment and for every fuel of at
least 2. -/
theorem Expr.eval_op_exact (fuel : Nat) {a b : Nat} (op : Op) (env : Env)
    (ha : a ≤ 2147483647) (hb : b ≤ 2147483647)
    (hadd : op = .Add → a + b ≤ 2147483647)
    (hmul : op = .Mul → a * b ≤ 2147483647)
    (hdiv : op = .Div → b ≠ 0) :
    Expr.eval (fuel + 2) (.Operation (.Number ⟨(a : Int)⟩) (.Number ⟨(b : Int)⟩) op) env =
      .ok (.Number (opExact op a b)) := by
  rw [Expr.eval]
  rw [Expr.eval, Expr.eval, Res.ok_bind, Res.ok_bind]
  cases op with
  | Add =>
    have h : a + b ≤ 2147483647 := hadd rfl
    simp only [opExact]
    rw [show ((a : Int) + b) = ((a + b : Nat) : Int) by push_cast; ring]
    rw [wrap32_eq_self (by omega) (by exact_mod_cast h)]
  | Sub =>
    simp only [opExact]
    rw [wrap32_eq_self (by omega) (by omega)]
  | Mul =>
    have h : a * b ≤ 2147483647 := hmul rfl
    simp only [opExact]
    rw [show ((a : Int) * b) = ((a * b : Nat) : Int) by push_cast; ring]
    rw [wrap32_eq_self (by omega) (by exact_mod_cast h)]
  | Div =>
    have h : b ≠ 0 := hdiv rfl
    have hcond : ¬((b : Int) = 0 ∨ ((a : Int) = i32min ∧ (b : Int) = -1)) := by
      unfold i32min
      omega
    show (if (b : Int) = 0 ∨ ((a : Int) = i32min ∧ (b : Int) = -1) then Res.fatal
      else Res.ok (Val.Number (Int.tdiv (a : Int) (b : Int)))) =
        Res.ok (Val.Number (opExact Op.Div a b))
    rw [if_neg hcond]
    rfl

/-- Claim C1, counterexample to the quantification over all signed 32-bit
integers: at `a = -1`, `b = 2`, operator `+`, the source string is
`-1+2`, whose leading `-` no parsing alternative accepts (digits,
identifier and brace all fail), so parsing and evaluation yield the
`expected` brace error of the last alternative instead of `Number(1)`. -/
theorem claim_c1_counterexample :
    Stmt.new 9 (("-1+2").data) = .err ("expected \x7b") ∧
    evaluate 9 (("-1+2").data) = .err ("expected \x7b") := ⟨rfl, rfl⟩

/-- Claim C1 (amended): for nonnegative `a` and `b` in the signed 32-bit
range (negative literals are not parseable), with the exact result in
range for `Add`/`Mul` and `b ≠ 0` for `Div`, parsing the source string
`a op b` (with arbitrary, independently chosen whitespace runs around the
operator) consumes the whole input and yields the flat operation AST, and
evaluating that AST in any environment yields `Val.Number` of the exact
operator result, with `Div` truncating toward zero.  The fuel offsets make
the statement hold for every sufficient fuel. -/
theorem claim_c1 (fuel fuel2 : Nat) (a b : Nat) (ws1 ws2 : Str) (op : Op) (env : Env)
    (ha : a ≤ 2147483647) (hb : b ≤ 2147483647)
    (hws1 : ws1.all isWsC = true) (hws2 : ws2.all isWsC = true)
    (hadd : op = .Add → a + b ≤ 2147483647)
    (hmul : op = .Mul → a * b ≤ 2147483647)
    (hdiv : op = .Div → b ≠ 0) :
    Stmt.new (fuel + 4) (decimal a ++ (ws1 ++ (op.char :: (ws2 ++ decimal b)))) =
      .ok ([], .Expr (.Operation (.Number ⟨(a : Int)⟩) (.Number ⟨(b : Int)⟩) op)) ∧
    Expr.eval (fuel2 + 2)
        (.Operation (.Number ⟨(a : Int)⟩) (.Number ⟨(b : Int)⟩) op) env =
      .ok (.Number (opExact op a b)) := by
  constructor
  · exact Stmt.new_op_string fuel op ha hb
      (List.all_eq_true.mp hws1) (List.all_eq_true.mp hws2)
  · exact Expr.eval_op_exact fuel2 op env ha hb hadd hmul hdiv

/-- Claim C1, witness: the two spec examples.  `1+2` (no whitespace)
parses to the addition AST and evaluates to `Number 3`; `2 * 2` (one space
on each side) parses to the multiplication AST and evaluates to
`Number 4`. -/
theorem claim_c1_witness :
    (Stmt.new (0 + 4) (decimal 1 ++ ([] ++ (Op.char .Add :: ([] ++ decimal 2)))) =
        .ok ([], .Expr (.Operation (.Number ⟨(1 : Int)⟩) (.Number ⟨(2 : Int)⟩) .Add)) ∧
      Expr.eval (0 + 2)
          (.Operation (.Number ⟨(1 : Int)⟩) (.Number ⟨(2 : Int)⟩) .Add) Env.default =
        .ok (.Number (opExact .Add 1 2))) ∧
    (Stmt.new (0 + 4) (decimal 2 ++ ([' '] ++ (Op.char .Mul :: ([' '] ++ decimal 2)))) =
        .ok ([], .Expr (.Operation (.Number ⟨(2 : Int)⟩) (.Number ⟨(2 : Int)⟩) .Mul)) ∧
      Expr.eval (0 + 2)
          (.Operation (.Number ⟨(2 : Int)⟩) (.Number ⟨(2 : Int)⟩) .Mul) Env.default =
        .ok (.Number (opExact .Mul 2 2))) :=
  ⟨claim_c1 0 0 1 2 [] [] .Add Env.default (by decide) (by decide) (by decide)
      (by decide) (by decide) (by decide) (by decide),
    claim_c1 0 0 2 2 [' '] [' '] .Mul Env.default (by decide) (by decide) (by decide)
      (by decide) (by decide) (by decide) (by decide)⟩

/-- Claim C10: `Number::new` is not total over well-formed digit inputs —
on any input starting with a nonempty digit run whose value exceeds
`i32::MAX`, the unwrapped conversion panics (`fatal`) instead of returning
a parse or an `Err`. -/
theorem claim_c10 (ds rest : Str) (hne : ds ≠ []) (hall : ds.all isDigitC = true)
    (hrest : rest = [] ∨ ∃ c t, rest = c :: t ∧ isDigitC c = false)
    (hbig : 2147483647 < digitsToNat ds) :
    Number.new (ds ++ rest) = .fatal := by
  have hr : ∀ c t, rest = c :: t → isDigitC c = false := by
    intro c t h
    rcases hrest with h0 | ⟨c', t', h1, h2⟩
    · rw [h0] at h
      cases h
    · rw [h1] at h
      injection h with hc ht
      rw [← hc]
      exact h2
  unfold Number.new
  rw [extract_digits_exact hne (List.all_eq_true.mp hall) hr, Res.ok_bind]
  simp only []
  rw [if_neg (by omega)]

/-- Claim C10, witness: the spec example `9999999999` (which exceeds
`i32::MAX = 2147483647`) makes `Number::new` panic. -/
theorem claim_c10_witness : Number.new (("9999999999").data ++ []) = .fatal :=
  claim_c10 (("9999999999").data) [] (by decide) (by decide) (Or.inl rfl) (by decide)

/-- Test for the `Number` constructor of `Val`. -/
def Val.isNumber : Val → Bool
  | .Number _ => true
  | .Unit => false

/-- Claim C2, counterexample: the claim quantifies over "either side
produces a non-Number value", but when the left side produces `Unit` and
the right side fails, the right side's own error propagates instead of the
both-sides-must-be-numbers message. -/
theorem claim_c2_counterexample :
    Expr.eval 3 (.Block (.mk [])) Env.default = .ok (.Unit) ∧
    Expr.eval 4 (.Operation (.Block (.mk [])) (.BindingUsage ⟨("x").data⟩) .Add)
        Env.default =
      .err ("binding with name x does not exist") ∧
    ("binding with name x does not exist" : String) ≠
      "cannot evaluate operation whose left-hand side and right-hand side are not both numbers" :=
  ⟨rfl, rfl, by decide⟩

/-- Claim C2 (amended): whenever both sides of an `Operation` evaluate
successfully and at least one result is not a `Val.Number`, evaluating the
`Operation` fails with exactly the both-sides-must-be-numbers message. -/
theorem claim_c2 (fuel : Nat) (lhs rhs : Expr) (op : Op) (env : Env) (vl vr : Val)
    (hl : Expr.eval fuel lhs env = .ok vl) (hr : Expr.eval fuel rhs env = .ok vr)
    (hnn : vl.isNumber = false ∨ vr.isNumber = false) :
    Expr.eval (fuel + 1) (.Operation lhs rhs op) env =
      .err ("cannot evaluate operation whose left-hand side and right-hand side are not both numbers") := by
  rw [Expr.eval, hl, Res.ok_bind, hr, Res.ok_bind]
  cases vl with
  | Number n =>
    cases vr with
    | Number m => simp [Val.isNumber] at hnn
    | Unit => rfl
  | Unit => rfl

/-- Claim C2, witness: an `Operation` whose left side is an empty block
(evaluating to `Unit`) and whose right side is the literal `1` fails with
the both-sides-must-be-numbers message. -/
theorem claim_c2_witness :
    Expr.eval 4 (.Operation (.Block (.mk [])) (.Number ⟨1⟩) .Add) Env.default =
      .err ("cannot evaluate operation whose left-hand side and right-hand side are not both numbers") :=
  claim_c2 3 (.Block (.mk [])) (.Number ⟨1⟩) .Add Env.default .Unit (.Number 1)
    rfl rfl (Or.inl rfl)

/-- Claim C3, counterexample to the zero-argument condition: in an
environment with no binding `g` and a ONE-parameter function `g` (so no
zero-argument function named `g` exists), the claim's otherwise-branch
requires the original lookup error `binding with name g does not exist`,
but the arity-blind `is_ok` check in `BindingUsage::eval` fires the
fallback call anyway, which fails with the arity-mismatch error of the
zero-argument invocation instead. -/
theorem claim_c3_counterexample :
    Env.get_binding ⟨[], [((("g").data), ([(("x").data)], .Expr (.Number ⟨1⟩)))]⟩
        (("g").data) =
      .error ("binding with name g does not exist") ∧
    BindingUsage.eval 5 ⟨("g").data⟩
        ⟨[], [((("g").data), ([(("x").data)], .Expr (.Number ⟨1⟩)))]⟩ =
      .err ("wrong number of arguments were passed to g") ∧
    ("wrong number of arguments were passed to g" : String) ≠
      "binding with name g does not exist" :=
  ⟨rfl, rfl, by decide⟩

/-- Claim C3 (amended): `BindingUsage` evaluation first looks the name up
among the bindings and returns the value on success; when the lookup fails
and ANY function of the name exists (regardless of its arity), the result
is that of a call with no parameters — so for a function of nonzero arity
an arity-mismatch error, not the lookup error; only when no function of
the name exists does the original lookup error propagate unchanged. -/
theorem claim_c3 (fuel : Nat) (name : Str) (env : Env) :
    (∀ v, env.get_binding name = .ok v →
      BindingUsage.eval (fuel + 1) ⟨name⟩ env = .ok v) ∧
    (∀ m, env.get_binding name = .error m → (env.get_func name).toBool = true →
      BindingUsage.eval (fuel + 1) ⟨name⟩ env =
        FuncCall.evalCall fuel (.mk name []) env) ∧
    (∀ m, env.get_binding name = .error m → (env.get_func name).toBool = false →
      BindingUsage.eval (fuel + 1) ⟨name⟩ env = .err m) := by
  refine ⟨?_, ?_, ?_⟩
  · intro v h
    rw [BindingUsage.eval]
    rw [show (⟨name⟩ : BindingUsage).name = name from rfl, h]
  · intro m h hf
    rw [BindingUsage.eval]
    rw [show (⟨name⟩ : BindingUsage).name = name from rfl, h]
    simp only [hf, if_true]
  · intro m h hf
    rw [BindingUsage.eval]
    rw [show (⟨name⟩ : BindingUsage).name = name from rfl, h]
    simp only [hf]
    rw [if_neg (by simp)]

/-- Claim C3, witness: in an environment with no bindings and a
zero-argument function `f` returning `5`, the binding usage `f` is
evaluated as the zero-argument call (yielding `Number 5`); in an
environment with a binding `y`, the binding's value is returned. -/
theorem claim_c3_witness :
    (BindingUsage.eval 4 ⟨("f").data⟩ ⟨[], [(("f").data, ([], .Expr (.Number ⟨5⟩)))]⟩ =
      FuncCall.evalCall 3 (.mk (("f").data) []) ⟨[], [(("f").data, ([], .Expr (.Number ⟨5⟩)))]⟩) ∧
    BindingUsage.eval 4 ⟨("y").data⟩ ⟨[(("y").data, .Number 7)], []⟩ = .ok (.Number 7) :=
  ⟨(claim_c3 3 (("f").data) ⟨[], [(("f").data, ([], .Expr (.Number ⟨5⟩)))]⟩).2.1
      ("binding with name f does not exist") rfl rfl,
    (claim_c3 3 (("y").data) ⟨[(("y").data, .Number 7)], []⟩).1 (.Number 7) rfl⟩

/-- Claim C7: a `BindingDef` statement and a `FuncDef` statement evaluate
to `Val.Unit` whenever they succeed, regardless of the declared expression
or body, while a bare `Expr` statement returns the expression's own
value. -/
theorem claim_c7 (fuel : Nat) (bd : BindingDef) (fd : FuncDef) (e : Expr) (env : Env) :
    (∀ p, Stmt.eval fuel (.BindingDef bd) env = .ok p → p.1 = .Unit) ∧
    (∀ p, Stmt.eval fuel (.FuncDef fd) env = .ok p → p.1 = .Unit) ∧
    (∀ p, Stmt.eval (fuel + 1) (.Expr e) env = .ok p → Expr.eval fuel e env = .ok p.1) := by
  refine ⟨?_, ?_, ?_⟩
  · intro p h
    cases fuel with
    | zero => simp [Stmt.eval] at h
    | succ f =>
      cases bd with
      | mk name e0 =>
        rw [Stmt.eval] at h
        obtain ⟨v, hv, hp⟩ := Res.bind_eq_ok h
        injection hp with hp
        rw [← hp]
  · intro p h
    cases fuel with
    | zero => simp [Stmt.eval] at h
    | succ f =>
      cases fd with
      | mk name params body =>
        rw [Stmt.eval] at h
        injection h with h
        rw [← h]
  · intro p h
    rw [Stmt.eval] at h
    obtain ⟨v, hv, hp⟩ := Res.map_eq_ok h
    rw [hv, ← hp]

/-- Claim C7, witness: `let x = 1` evaluates to `Unit` (first component)
and the bare expression `7` returns its own value (third component). -/
theorem claim_c7_witness :
    ((Val.Unit, Env.store_binding Env.default (("x").data) (.Number 1))).1 = Val.Unit ∧
    Expr.eval 1 (.Number ⟨7⟩) Env.default = .ok ((Val.Number 7, Env.default)).1 :=
  ⟨(claim_c7 2 (.mk (("x").data) (.Number ⟨1⟩)) (.mk [] [] (.Expr (.Number ⟨0⟩)))
        (.Number ⟨7⟩) Env.default).1
      (Val.Unit, Env.store_binding Env.default (("x").data) (.Number 1)) rfl,
    (claim_c7 1 (.mk (("x").data) (.Number ⟨1⟩)) (.mk [] [] (.Expr (.Number ⟨0⟩)))
        (.Number ⟨7⟩) Env.default).2.2 (Val.Number 7, Env.default) rfl⟩

/-- Claim C9: expression evaluation never mutates the environment.  In the
embedding `Expr.eval` mirrors the Rust `&Env` parameter by returning only a
`Val`, so expression evaluation cannot alter any binding or function
record; the statement below captures the observable half: running a bare
expression statement (the only way expression evaluation meets the mutable
environment) returns the environment unchanged. -/
theorem claim_c9 (fuel : Nat) (e : Expr) (env : Env) (v : Val) (env' : Env)
    (h : Stmt.eval fuel (.Expr e) env = .ok (v, env')) : env' = env := by
  cases fuel with
  | zero => simp [Stmt.eval] at h
  | succ f =>
    rw [Stmt.eval] at h
    obtain ⟨w, hw, hp⟩ := Res.map_eq_ok h
    injection hp with hp1 hp2
    rw [hp2]

/-- Claim C9, witness: evaluating the bare expression `5` as a statement
returns the default environment unchanged. -/
theorem claim_c9_witness :
    Stmt.eval 2 (.Expr (.Number ⟨5⟩)) Env.default = .ok (.Number 5, Env.default) ∧
    Env.default = Env.default :=
  ⟨rfl, claim_c9 2 (.Number ⟨5⟩) Env.default (.Number 5) Env.default rfl⟩

/-- Claim C5: `Expr::new` tries an operation first and falls back to a
non-operation exactly when the operation parse fails, and the
non-operation alternatives run in the fixed order number, function call,
binding usage, block, the first success winning. -/
theorem claim_c5 (fuel : Nat) (s : Str) :
    (∀ v, Expr.new_operation fuel s = .ok v → Expr.new (fuel + 1) s = .ok v) ∧
    (∀ m, Expr.new_operation fuel s = .err m →
      Expr.new (fuel + 1) s = Expr.new_non_operation fuel s) ∧
    (∀ v, Expr.new_number s = .ok v → Expr.new_non_operation (fuel + 1) s = .ok v) ∧
    (∀ m v, Expr.new_number s = .err m → FuncCall.new fuel s = .ok v →
      Expr.new_non_operation (fuel + 1) s = .ok (v.1, .FuncCall v.2)) ∧
    (∀ m m2 v, Expr.new_number s = .err m → FuncCall.new fuel s = .err m2 →
      BindingUsage.new s = .ok v →
      Expr.new_non_operation (fuel + 1) s = .ok (v.1, .BindingUsage v.2)) ∧
    (∀ m m2 m3 v, Expr.new_number s = .err m → FuncCall.new fuel s = .err m2 →
      BindingUsage.new s = .err m3 → Block.new fuel s = .ok v →
      Expr.new_non_operation (fuel + 1) s = .ok (v.1, .Block v.2)) := by
  refine ⟨?_, ?_, ?_, ?_, ?_, ?_⟩
  · intro v h
    rw [Expr.new, h, Res.ok_orElse]
  · intro m h
    rw [Expr.new, h, Res.err_orElse]
  · intro v h
    rw [Expr.new_non_operation, h, Res.ok_orElse]
  · intro m v h hf
    rw [Expr.new_non_operation, h, Res.err_orElse, hf, Res.map_ok_eq, Res.ok_orElse]
  · intro m m2 v h hf hb
    rw [Expr.new_non_operation, h, Res.err_orElse, hf, Res.map_err_eq, Res.err_orElse,
      hb]
    rfl
  · intro m m2 m3 v h hf hb hk
    rw [Expr.new_non_operation, h, Res.err_orElse, hf, Res.map_err_eq, Res.err_orElse,
      hb, Res.map_err_eq, Res.err_orElse, hk, Res.map_ok_eq]

/-- Claim C5, witness: on `1+2` the operation branch succeeds and decides
`Expr::new`; on `abc` number and function call fail (no digits, then no
argument after the identifier) and the input parses as a binding usage. -/
theorem claim_c5_witness :
    Expr.new 9 (("1+2").data) =
      .ok ([], .Operation (.Number ⟨1⟩) (.Number ⟨2⟩) .Add) ∧
    Expr.new_non_operation 9 (("abc").data) =
      .ok ([], .BindingUsage ⟨("abc").data⟩) :=
  ⟨(claim_c5 8 (("1+2").data)).1
      ([], .Operation (.Number ⟨1⟩) (.Number ⟨2⟩) .Add) rfl,
    (claim_c5 8 (("abc").data)).2.2.2.2.1 ("expected digits") ("expected a space")
      ([], ⟨("abc").data⟩) rfl rfl rfl⟩

/-- Claim C6: `Stmt::new` tries `BindingDef`, then `FuncDef`, then a bare
`Expr`, in that order, and returns the first success with its unconsumed
remainder. -/
theorem claim_c6 (fuel : Nat) (s : Str) :
    (∀ v, BindingDef.new fuel s = .ok v →
      Stmt.new (fuel + 1) s = .ok (v.1, .BindingDef v.2)) ∧
    (∀ m v, BindingDef.new fuel s = .err m → FuncDef.new fuel s = .ok v →
      Stmt.new (fuel + 1) s = .ok (v.1, .FuncDef v.2)) ∧
    (∀ m m2 v, BindingDef.new fuel s = .err m → FuncDef.new fuel s = .err m2 →
      Expr.new fuel s = .ok v → Stmt.new (fuel + 1) s = .ok (v.1, .Expr v.2)) := by
  refine ⟨?_, ?_, ?_⟩
  · intro v h
    rw [Stmt.new, h, Res.map_ok_eq, Res.ok_orElse]
  · intro m v h hf
    rw [Stmt.new, h, Res.map_err_eq, Res.err_orElse, hf, Res.map_ok_eq, Res.ok_orElse]
  · intro m m2 v h hf he
    rw [Stmt.new, h, Res.map_err_eq, Res.err_orElse, hf, Res.map_err_eq, Res.err_orElse,
      he, Res.map_ok_eq]

/-- Claim C6, witness: `let x = 5` is taken by the `BindingDef` branch,
`fn f => 5` falls through to the `FuncDef` branch, and `1+1` falls through
to the bare-expression branch. -/
theorem claim_c6_witness :
    Stmt.new 9 (("let x = 5").data) =
      .ok ([], .BindingDef (.mk (("x").data) (.Number ⟨5⟩))) ∧
    Stmt.new 9 (("fn f => 5").data) =
      .ok ([], .FuncDef (.mk (("f").data) [] (.Expr (.Number ⟨5⟩)))) ∧
    Stmt.new 9 (("1+1").data) =
      .ok ([], .Expr (.Operation (.Number ⟨1⟩) (.Number ⟨1⟩) .Add)) :=
  ⟨(claim_c6 8 (("let x = 5").data)).1
      ([], .mk (("x").data) (.Number ⟨5⟩)) rfl,
    (claim_c6 8 (("fn f => 5").data)).2.1 ("expected let")
      ([], .mk (("f").data) [] (.Expr (.Number ⟨5⟩))) rfl rfl,
    (claim_c6 8 (("1+1").data)).2.2 ("expected let") ("expected fn")
      ([], .Operation (.Number ⟨1⟩) (.Number ⟨1⟩) .Add) rfl rfl rfl⟩

/-- Claim C8: when every alternative fails, `Stmt::new` surfaces only the
failure of its last branch (the bare expression), and `Expr::new` surfaces
only the failure of the last non-operation alternative (the block); every
earlier branch's message is discarded. -/
theorem claim_c8 (fuel : Nat) (s : Str) (m : String) :
    (Stmt.new (fuel + 1) s = .err m →
      (∃ m1, BindingDef.new fuel s = .err m1) ∧
      (∃ m2, FuncDef.new fuel s = .err m2) ∧
      Expr.new fuel s = .err m) ∧
    (Expr.new (fuel + 2) s = .err m →
      (∃ m1, Expr.new_operation (fuel + 1) s = .err m1) ∧
      (∃ m2, Expr.new_number s = .err m2) ∧
      (∃ m3, FuncCall.new fuel s = .err m3) ∧
      (∃ m4, BindingUsage.new s = .err m4) ∧
      Block.new fuel s = .err m) := by
  constructor
  · intro h
    rw [Stmt.new] at h
    obtain ⟨m1, h1, h⟩ := Res.orElse_eq_err h
    obtain ⟨m2, h2, h⟩ := Res.orElse_eq_err h
    exact ⟨⟨m1, Res.map_eq_err h1⟩, ⟨m2, Res.map_eq_err h2⟩, Res.map_eq_err h⟩
  · intro h
    rw [Expr.new] at h
    obtain ⟨m1, h1, h⟩ := Res.orElse_eq_err h
    rw [Expr.new_non_operation] at h
    obtain ⟨m2, h2, h⟩ := Res.orElse_eq_err h
    obtain ⟨m3, h3, h⟩ := Res.orElse_eq_err h
    obtain ⟨m4, h4, h⟩ := Res.orElse_eq_err h
    exact ⟨⟨m1, h1⟩, ⟨m2, h2⟩, ⟨m3, Res.map_eq_err h3⟩, ⟨m4, Res.map_eq_err h4⟩,
      Res.map_eq_err h⟩

/-- Claim C8, witness: on `?` every branch fails, and both `Stmt::new` and
`Expr::new` report exactly the brace error of the block branch, the last
alternative attempted. -/
theorem claim_c8_witness :
    ((∃ m1, BindingDef.new 8 (("?").data) = .err m1) ∧
      (∃ m2, FuncDef.new 8 (("?").data) = .err m2) ∧
      Expr.new 8 (("?").data) = .err ("expected \x7b")) ∧
    ((∃ m1, Expr.new_operation 8 (("?").data) = .err m1) ∧
      (∃ m2, Expr.new_number (("?").data) = .err m2) ∧
      (∃ m3, FuncCall.new 7 (("?").data) = .err m3) ∧
      (∃ m4, BindingUsage.new (("?").data) = .err m4) ∧
      Block.new 7 (("?").data) = .err ("expected \x7b")) :=
  ⟨(claim_c8 8 (("?").data) ("expected \x7b")).1 rfl,
    (claim_c8 7 (("?").data) ("expected \x7b")).2 rfl⟩

theorem new_number_flat {s : Str} {v : Str × Expr} (h : Expr.new_number s = .ok v) :
    Expr.flat v.2 = true ∧ v.2.isOperationE = false := by
  obtain ⟨a, ha, hp⟩ := Res.map_eq_ok h
  rw [← hp]
  exact ⟨by simp [Expr.flat], rfl⟩

/-- Every expression any of the parsing functions returns is flat: no
`Operation` node anywhere in it has an `Operation` as an immediate
operand; moreover a non-operation parse never returns an `Operation`
node.  Proved by induction on the fuel, simultaneously for all parsers. -/
theorem parse_flat : ∀ fuel : Nat,
    (∀ s v, Expr.new fuel s = .ok v → Expr.flat v.2 = true) ∧
    (∀ s v, Expr.new_non_operation fuel s = .ok v →
      Expr.flat v.2 = true ∧ v.2.isOperationE = false) ∧
    (∀ s v, Expr.new_operation fuel s = .ok v → Expr.flat v.2 = true) ∧
    (∀ s v, FuncCall.new fuel s = .ok v → FuncCall.flatF v.2 = true) ∧
    (∀ s v, parseArgs1 fuel s = .ok v → exprsFlat v.2 = true) ∧
    (∀ s v, parseMoreArgs fuel s = .ok v → exprsFlat v.2 = true) ∧
    (∀ s v, Block.new fuel s = .ok v → Block.flatB v.2 = true) ∧
    (∀ s v, parseStmts fuel s = .ok v → stmtsFlat v.2 = true) ∧
    (∀ s v, Stmt.new fuel s = .ok v → Stmt.flat v.2 = true) ∧
    (∀ s v, BindingDef.new fuel s = .ok v → Stmt.flat (.BindingDef v.2) = true) ∧
    (∀ s v, FuncDef.new fuel s = .ok v → Stmt.flat (.FuncDef v.2) = true) := by
  intro fuel
  induction fuel with
  | zero =>
    refine ⟨?_, ?_, ?_, ?_, ?_, ?_, ?_, ?_, ?_, ?_, ?_⟩ <;>
      intro s v h <;>
      simp [Expr.new, Expr.new_non_operation, Expr.new_operation, FuncCall.new,
        parseArgs1, parseMoreArgs, Block.new, parseStmts, Stmt.new,
        BindingDef.new, FuncDef.new] at h
  | succ f ih =>
    obtain ⟨ihE, ihN, ihO, ihF, ihA1, ihAM, ihB, ihPS, ihS, ihBD, ihFD⟩ := ih
    refine ⟨?_, ?_, ?_, ?_, ?_, ?_, ?_, ?_, ?_, ?_, ?_⟩
    · intro s v h
      rw [Expr.new] at h
      rcases Res.orElse_eq_ok h with h | ⟨m, _, h⟩
      · exact ihO s v h
      · exact (ihN s v h).1
    · intro s v h
      rw [Expr.new_non_operation] at h
      rcases Res.orElse_eq_ok h with h | ⟨m1, _, h⟩
      · exact new_number_flat h
      rcases Res.orElse_eq_ok h with h | ⟨m2, _, h⟩
      · obtain ⟨a, ha, hp⟩ := Res.map_eq_ok h
        rw [← hp]
        exact ⟨by simp [Expr.flat]; exact ihF s a ha, rfl⟩
      rcases Res.orElse_eq_ok h with h | ⟨m3, _, h⟩
      · obtain ⟨a, ha, hp⟩ := Res.map_eq_ok h
        rw [← hp]
        exact ⟨by simp [Expr.flat], rfl⟩
      · obtain ⟨a, ha, hp⟩ := Res.map_eq_ok h
        rw [← hp]
        exact ⟨by simp [Expr.flat]; exact ihB s a ha, rfl⟩
    · intro s v h
      rw [Expr.new_operation] at h
      obtain ⟨p, hp, h⟩ := Res.bind_eq_ok h
      obtain ⟨q, hq, h⟩ := Res.bind_eq_ok h
      obtain ⟨u, hu, hpr⟩ := Res.map_eq_ok h
      rw [← hpr]
      have hl := ihN s p hp
      have hr := ihN _ u hu
      simp [Expr.flat, hl.1, hl.2, hr.1, hr.2]
    · intro s v h
      rw [FuncCall.new] at h
      obtain ⟨p, hp, h⟩ := Res.bind_eq_ok h
      obtain ⟨q, hq, hpr⟩ := Res.map_eq_ok h
      rw [← hpr]
      simp [FuncCall.flatF]
      exact ihA1 _ q hq
    · intro s v h
      rw [parseArgs1] at h
      obtain ⟨p, hp, h⟩ := Res.bind_eq_ok h
      obtain ⟨q, hq, h⟩ := Res.bind_eq_ok h
      obtain ⟨u, hu, hpr⟩ := Res.map_eq_ok h
      rw [← hpr]
      simp [exprsFlat]
      exact ⟨ihE _ q hq, ihAM _ u hu⟩
    · intro s v h
      rw [parseMoreArgs] at h
      cases hws : extract_whitespace1 s with
      | ok p =>
        rw [hws] at h
        simp only [] at h
        cases he : Expr.new f p.1 with
        | ok q =>
          rw [he] at h
          obtain ⟨u, hu, hpr⟩ := Res.map_eq_ok h
          rw [← hpr]
          simp [exprsFlat]
          exact ⟨ihE _ q he, ihAM _ u hu⟩
        | err m =>
          rw [he] at h
          injection h with h
          rw [← h]
          simp [exprsFlat]
        | fatal =>
          rw [he] at h
          cases h
        | fuelOut =>
          rw [he] at h
          cases h
      | err m =>
        rw [hws] at h
        injection h with h
        rw [← h]
        simp [exprsFlat]
      | fatal =>
        rw [hws] at h
        cases h
      | fuelOut =>
        rw [hws] at h
        cases h
    · intro s v h
      rw [Block.new] at h
      obtain ⟨p, hp, h⟩ := Res.bind_eq_ok h
      obtain ⟨q, hq, h⟩ := Res.bind_eq_ok h
      obtain ⟨u, hu, hpr⟩ := Res.bind_eq_ok h
      injection hpr with hpr
      rw [← hpr]
      simp [Block.flatB]
      exact ihPS _ q hq
    · intro s v h
      rw [parseStmts] at h
      cases hst : Stmt.new f s with
      | ok p =>
        rw [hst] at h
        obtain ⟨q, hq, hpr⟩ := Res.map_eq_ok h
        rw [← hpr]
        simp [stmtsFlat]
        exact ⟨ihS _ p hst, ihPS _ q hq⟩
      | err m =>
        rw [hst] at h
        injection h with h
        rw [← h]
        simp [stmtsFlat]
      | fatal =>
        rw [hst] at h
        cases h
      | fuelOut =>
        rw [hst] at h
        cases h
    · intro s v h
      rw [Stmt.new] at h
      rcases Res.orElse_eq_ok h with h | ⟨m1, _, h⟩
      · obtain ⟨a, ha, hp⟩ := Res.map_eq_ok h
        rw [← hp]
        exact ihBD s a ha
      rcases Res.orElse_eq_ok h with h | ⟨m2, _, h⟩
      · obtain ⟨a, ha, hp⟩ := Res.map_eq_ok h
        rw [← hp]
        exact ihFD s a ha
      · obtain ⟨a, ha, hp⟩ := Res.map_eq_ok h
        rw [← hp]
        simp [Stmt.flat]
        exact ihE s a ha
    · intro s v h
      rw [BindingDef.new] at h
      obtain ⟨s1, hs1, h⟩ := Res.bind_eq_ok h
      obtain ⟨p, hp2, h⟩ := Res.bind_eq_ok h
      obtain ⟨q, hq, h⟩ := Res.bind_eq_ok h
      obtain ⟨s2, hs2, h⟩ := Res.bind_eq_ok h
      obtain ⟨u, hu, hpr⟩ := Res.map_eq_ok h
      rw [← hpr]
      simp [Stmt.flat]
      exact ihE _ u hu
    · intro s v h
      rw [FuncDef.new] at h
      obtain ⟨s1, hs1, h⟩ := Res.bind_eq_ok h
      obtain ⟨p, hp2, h⟩ := Res.bind_eq_ok h
      obtain ⟨q, hq, h⟩ := Res.bind_eq_ok h
      obtain ⟨ids, hids, h⟩ := Res.bind_eq_ok h
      obtain ⟨s2, hs2, h⟩ := Res.bind_eq_ok h
      obtain ⟨u, hu, hpr⟩ := Res.map_eq_ok h
      rw [← hpr]
      simp [Stmt.flat]
      exact ihS _ u hu

/-- Claim C4: `1+2+3` is not parseable as a single expression — `Expr::new`
succeeds with the flat operation `1+2` and leaves `+3` unconsumed — and
more generally no expression returned by `Expr::new` contains an
`Operation` whose immediate left- or right-hand side is itself an
`Operation`. -/
theorem claim_c4 :
    Expr.new 9 (("1+2+3").data) =
      .ok (("+3").data, .Operation (.Number ⟨1⟩) (.Number ⟨2⟩) .Add) ∧
    ∀ fuel (s r : Str) (e : Expr), Expr.new fuel s = .ok (r, e) → Expr.flat e = true := by
  constructor
  · rfl
  · intro fuel s r e h
    exact (parse_flat fuel).1 s (r, e) h

/-- Claim C4, witness: the expression parsed from `1+2+3` is flat. -/
theorem claim_c4_witness :
    Expr.flat (.Operation (.Number ⟨1⟩) (.Number ⟨2⟩) .Add) = true :=
  claim_c4.2 9 (("1+2+3").data) (("+3").data) _ claim_c4.1
